import Mathlib

/-!
Verification of the r-share file-transfer client's core against its
specification.  Bytes are modelled as `Nat` values below 256, byte buffers as
`List Nat`, and Rust strings as Lean `String` (the strings handled by the
protocol paths verified here are ASCII, so Rust's byte indexing agrees with
character indexing).  Fallible Rust functions returning `Result<T>` are
modelled as `Except Error T`.

Third-party cryptographic primitives (the `aes_gcm`, `x25519_dalek`, `hkdf`,
`sha2` and `ed25519_dalek` crates) are not part of the repository; each is
replaced by an executable deterministic model satisfying the interface the
specification describes (marked `Modelled from the spec:`).  Everything else
is translated directly from the repository sources.
-/

set_option maxRecDepth 100000

namespace RShare

/-! ### Constants (src/config/constants.rs) -/

/-- Size of chunks when reading/writing files during transfer (1MB). -/
def FILE_CHUNK_SIZE : Nat := 1 * 1024 * 1024

/-- DONE signal sent by receiver after successful transfer. -/
def DONE_SIGNAL : String := "DONE\n"

/-! ### Error type (src/utils/error.rs)

`SessionError` does not appear in the enum in `utils/error.rs`, but it is
constructed by `server/relay.rs` and `args/serve.rs`, so it is included here
as an additional constructor. -/

inductive Error where
  | FileNotFound (msg : String)
  | FileRead (msg : String)
  | FileWrite (msg : String)
  | FileDelete (msg : String)
  | NetworkError (msg : String)
  | ConnectionFailed (msg : String)
  | SocketError (msg : String)
  | HttpError (msg : String)
  | Timeout (msg : String)
  | KeyGenerationFailed (msg : String)
  | SignatureError (msg : String)
  | HashMismatch (expected : String) (got : String)
  | InvalidSignature (msg : String)
  | InvalidInput (msg : String)
  | InvalidKey (msg : String)
  | InvalidConfig (msg : String)
  | ConfigError (msg : String)
  | CryptoError (msg : String)
  | SessionNotFound (msg : String)
  | TransferInterrupted (msg : String)
  | PartnerNotFound (msg : String)
  | SessionError (msg : String)
deriving DecidableEq, Repr

instance : DecidableEq (Except Error Unit) := fun a b =>
  match a, b with
  | .ok (), .ok () => isTrue rfl
  | .ok (), .error _ => isFalse (fun h => Except.noConfusion h)
  | .error _, .ok () => isFalse (fun h => Except.noConfusion h)
  | .error e, .error f =>
      if h : e = f then isTrue (by rw [h]) else
        isFalse (fun hh => h (by cases hh; rfl))

instance : DecidableEq (Except Error (List Nat)) := fun a b =>
  match a, b with
  | .ok x, .ok y =>
      if h : x = y then isTrue (by rw [h]) else
        isFalse (fun hh => h (by cases hh; rfl))
  | .ok _, .error _ => isFalse (fun h => Except.noConfusion h)
  | .error _, .ok _ => isFalse (fun h => Except.noConfusion h)
  | .error e, .error f =>
      if h : e = f then isTrue (by rw [h]) else
        isFalse (fun hh => h (by cases hh; rfl))

/-! ### Hex encoding (the `hex` crate: `hex::encode` / `hex::decode`) -/

/-- Lowercase hex digit for a value below 16 (as `hex::encode` emits). -/
def hexChar (d : Nat) : Char := Char.ofNat (if d < 10 then 48 + d else 87 + d)

/-- Value of a hex digit character; `hex::decode` accepts both cases. -/
def hexVal (c : Char) : Option Nat :=
  let n := c.toNat
  if 48 ≤ n ∧ n ≤ 57 then some (n - 48)
  else if 97 ≤ n ∧ n ≤ 102 then some (n - 87)
  else if 65 ≤ n ∧ n ≤ 70 then some (n - 55)
  else none

def hexEncodeList : List Nat → List Char
  | [] => []
  | b :: rest => hexChar (b / 16) :: hexChar (b % 16) :: hexEncodeList rest

/-- `hex::encode` on a byte buffer. -/
def hexEncode (l : List Nat) : String := ⟨hexEncodeList l⟩

def hexDecodeList : List Char → Option (List Nat)
  | [] => some []
  | [_] => none
  | c1 :: c2 :: rest =>
    match hexVal c1, hexVal c2, hexDecodeList rest with
    | some hi, some lo, some bs => some ((16 * hi + lo) :: bs)
    | _, _, _ => none

/-- `hex::decode` on a string. -/
def hexDecode (s : String) : Option (List Nat) := hexDecodeList s.data

theorem hexVal_hexChar (d : Nat) (h : d < 16) : hexVal (hexChar d) = some d := by
  interval_cases d <;> rfl

theorem hexDecodeList_hexEncodeList (l : List Nat) (h : ∀ b ∈ l, b < 256) :
    hexDecodeList (hexEncodeList l) = some l := by
  induction l with
  | nil => rfl
  | cons b rest ih =>
    have hb : b < 256 := h b (List.mem_cons_self b rest)
    have hrest : ∀ x ∈ rest, x < 256 := fun x hx => h x (List.mem_cons_of_mem b hx)
    have hdiv : b / 16 < 16 := by omega
    have hmod : b % 16 < 16 := by omega
    simp only [hexEncodeList, hexDecodeList, hexVal_hexChar _ hdiv,
      hexVal_hexChar _ hmod, ih hrest]
    rw [Nat.div_add_mod b 16]

theorem hexDecode_hexEncode (l : List Nat) (h : ∀ b ∈ l, b < 256) :
    hexDecode (hexEncode l) = some l :=
  hexDecodeList_hexEncodeList l h

theorem length_hexEncodeList (l : List Nat) :
    (hexEncodeList l).length = 2 * l.length := by
  induction l with
  | nil => rfl
  | cons b rest ih => simp [hexEncodeList, ih]; omega

theorem length_hexEncode (l : List Nat) : (hexEncode l).length = 2 * l.length := by
  show (hexEncodeList l).length = 2 * l.length
  exact length_hexEncodeList l

/-! ### AES-256-GCM model

Modelled from the spec: the `aes_gcm` crate's `Aes256Gcm` AEAD.  `aeadSeal`
returns `ciphertext ‖ tag` where the ciphertext has the plaintext's length and
the tag is 16 bytes; `aeadOpen` rejects inputs shorter than a tag and inputs
whose tag does not match, and otherwise inverts `aeadSeal`. -/

/-- Mixing fold used by the modelled primitives. -/
def mixStep (a b : Nat) : Nat := (a * 131 + b + 1) % 65521

def mixList (l : List Nat) (seed : Nat) : Nat := l.foldl mixStep seed

/-- Modelled from the spec: the AES-256-GCM keystream byte at position `i`. -/
def gcmKeyByte (key nonce : List Nat) (i : Nat) : Nat :=
  mixList (key ++ nonce) (i + 1) % 256

def gcmEncBytes (key nonce : List Nat) (i : Nat) : List Nat → List Nat
  | [] => []
  | b :: rest => (b + gcmKeyByte key nonce i) % 256 :: gcmEncBytes key nonce (i + 1) rest

def gcmDecBytes (key nonce : List Nat) (i : Nat) : List Nat → List Nat
  | [] => []
  | b :: rest => (b + (256 - gcmKeyByte key nonce i)) % 256 :: gcmDecBytes key nonce (i + 1) rest

/-- Modelled from the spec: the 16-byte GCM authentication tag. -/
def gcmTag (key nonce ct : List Nat) : List Nat :=
  (List.range 16).map (fun i => mixList (key ++ nonce ++ ct) (i * 31 + 11) % 256)

/-- Modelled from the spec: `cipher.encrypt(nonce, plaintext)` of `Aes256Gcm`. -/
def aeadSeal (key nonce pt : List Nat) : List Nat :=
  gcmEncBytes key nonce 0 pt ++ gcmTag key nonce (gcmEncBytes key nonce 0 pt)

/-- Modelled from the spec: `cipher.decrypt(nonce, data)` of `Aes256Gcm`. -/
def aeadOpen (key nonce data : List Nat) : Option (List Nat) :=
  if data.length < 16 then none
  else
    let ct := data.take (data.length - 16)
    let tag := data.drop (data.length - 16)
    if tag = gcmTag key nonce ct then some (gcmDecBytes key nonce 0 ct) else none

theorem length_gcmEncBytes (key nonce : List Nat) (i : Nat) (pt : List Nat) :
    (gcmEncBytes key nonce i pt).length = pt.length := by
  induction pt generalizing i with
  | nil => rfl
  | cons b rest ih => simp [gcmEncBytes, ih]

theorem length_gcmTag (key nonce ct : List Nat) : (gcmTag key nonce ct).length = 16 := by
  simp [gcmTag]

theorem gcmDecBytes_gcmEncBytes (key nonce : List Nat) (i : Nat) (pt : List Nat)
    (h : ∀ b ∈ pt, b < 256) :
    gcmDecBytes key nonce i (gcmEncBytes key nonce i pt) = pt := by
  induction pt generalizing i with
  | nil => rfl
  | cons b rest ih =>
    have hb : b < 256 := h b (List.mem_cons_self b rest)
    have hk : gcmKeyByte key nonce i < 256 := Nat.mod_lt _ (by norm_num)
    simp only [gcmEncBytes, gcmDecBytes]
    congr 1
    · omega
    · exact ih (i + 1) (fun x hx => h x (List.mem_cons_of_mem b hx))

theorem aeadOpen_aeadSeal (key nonce pt : List Nat) (h : ∀ b ∈ pt, b < 256) :
    aeadOpen key nonce (aeadSeal key nonce pt) = some pt := by
  have hlen : (aeadSeal key nonce pt).length = pt.length + 16 := by
    simp [aeadSeal, length_gcmEncBytes, length_gcmTag]
  have henc : (gcmEncBytes key nonce 0 pt).length = pt.length :=
    length_gcmEncBytes key nonce 0 pt
  unfold aeadOpen
  rw [hlen]
  simp only [Nat.add_sub_cancel]
  have htake : (aeadSeal key nonce pt).take pt.length = gcmEncBytes key nonce 0 pt := by
    unfold aeadSeal
    rw [← henc, List.take_left]
  have hdrop : (aeadSeal key nonce pt).drop pt.length =
      gcmTag key nonce (gcmEncBytes key nonce 0 pt) := by
    unfold aeadSeal
    rw [← henc, List.drop_left]
  rw [htake, hdrop, if_neg (by omega), if_pos rfl,
    gcmDecBytes_gcmEncBytes key nonce 0 pt h]

/-! ### Chunk encryption (src/crypto/encryption.rs)

The source draws a fresh random 12-byte nonce from `OsRng` for each chunk; the
nonce is passed explicitly here in place of the RNG. -/

/-- Bytes produced by `encrypt_chunk`: `[nonce][ciphertext][tag]`. -/
def encChunkBytes (aes_key nonce_bytes plaintext : List Nat) : List Nat :=
  nonce_bytes ++ aeadSeal aes_key nonce_bytes plaintext

/-- `encrypt_chunk` (src/crypto/encryption.rs, lines 13-34). -/
def encrypt_chunk (aes_key nonce_bytes plaintext : List Nat) : Except Error (List Nat) :=
  .ok (encChunkBytes aes_key nonce_bytes plaintext)

/-- `decrypt_chunk` (src/crypto/encryption.rs, lines 40-68).  The source
suffixes the crate's error display to both messages; that suffix is elided. -/
def decrypt_chunk (aes_key encrypted : List Nat) : Except Error (List Nat) :=
  if encrypted.length < 12 + 16 then
    .error (.CryptoError ("Encrypted data too short: " ++ toString encrypted.length
      ++ " bytes (need at least 28)"))
  else
    match aeadOpen aes_key (encrypted.take 12) (encrypted.drop 12) with
    | some plaintext => .ok plaintext
    | none => .error (.CryptoError
        "AES-GCM decryption failed (authentication failure or corrupted data)")

theorem length_encChunkBytes (key nonce pt : List Nat) (hn : nonce.length = 12) :
    (encChunkBytes key nonce pt).length = 12 + pt.length + 16 := by
  simp [encChunkBytes, aeadSeal, length_gcmEncBytes, length_gcmTag, hn]
  omega

theorem decrypt_encChunkBytes (key nonce pt : List Nat) (hn : nonce.length = 12)
    (hp : ∀ b ∈ pt, b < 256) :
    decrypt_chunk key (encChunkBytes key nonce pt) = .ok pt := by
  have hlen : (encChunkBytes key nonce pt).length = 12 + pt.length + 16 :=
    length_encChunkBytes key nonce pt hn
  have htake : (encChunkBytes key nonce pt).take 12 = nonce := by
    unfold encChunkBytes
    rw [← hn, List.take_left]
  have hdrop : (encChunkBytes key nonce pt).drop 12 = aeadSeal key nonce pt := by
    unfold encChunkBytes
    rw [← hn, List.drop_left]
  unfold decrypt_chunk
  rw [if_neg (by omega), htake, hdrop, aeadOpen_aeadSeal key nonce pt hp]

/-- C3: for every key and 12-byte nonce and every plaintext of bytes
(including the empty plaintext), `decrypt_chunk` inverts `encrypt_chunk` and
the ciphertext length is exactly `12 + |p| + 16`. -/
theorem aead_roundtrip (key nonce pt : List Nat) (hn : nonce.length = 12)
    (hp : ∀ b ∈ pt, b < 256) :
    ∃ c, encrypt_chunk key nonce pt = .ok c ∧ decrypt_chunk key c = .ok pt ∧
      c.length = 12 + pt.length + 16 :=
  ⟨encChunkBytes key nonce pt, rfl, decrypt_encChunkBytes key nonce pt hn hp,
    length_encChunkBytes key nonce pt hn⟩

/-- Witness for `aead_roundtrip` at a concrete 32-byte key, 12-byte nonce and
2-byte plaintext. -/
theorem aead_roundtrip_witness :
    ∃ c, encrypt_chunk (List.replicate 32 7) (List.replicate 12 3) [104, 105] = .ok c ∧
      decrypt_chunk (List.replicate 32 7) c = .ok [104, 105] ∧
      c.length = 12 + [104, 105].length + 16 :=
  aead_roundtrip (List.replicate 32 7) (List.replicate 12 3) [104, 105]
    (by decide) (by decide)

/-! ### Key exchange (src/crypto/key_exchange.rs)

Modelled from the spec: the `x25519_dalek` Diffie-Hellman primitive is
replaced by exponentiation in the commutative group of units modulo the prime
251 (public values are below 251, hence encodable in a single byte); the
`hkdf` crate's HKDF-SHA256 extract+expand is replaced by an opaque
deterministic 32-byte KDF of (salt, input key material, info). -/

def X25519_P : Nat := 251

def X25519_G : Nat := 6

/-- Modelled from the spec: the X25519 public key of a secret scalar. -/
def x25519Pub (secret : Nat) : Nat := X25519_G ^ secret % X25519_P

/-- Modelled from the spec: the raw X25519 Diffie-Hellman operation. -/
def x25519DH (secret pubVal : Nat) : Nat := pubVal ^ secret % X25519_P

/-- Modelled from the spec: a public value's 32-byte encoding. -/
def pubToBytes (v : Nat) : List Nat := v % 256 :: List.replicate 31 0

/-- Modelled from the spec: reading a public value back from its 32 bytes. -/
def bytesToPub (l : List Nat) : Nat := l.headD 0

/-- `EphemeralKeyPair::public_key_hex` (src/crypto/key_exchange.rs, 24-26). -/
def public_key_hex (secret : Nat) : String := hexEncode (pubToBytes (x25519Pub secret))

/-- `parse_public_key` (src/crypto/key_exchange.rs, lines 30-45). -/
def parse_public_key (hex_str : String) : Except Error Nat :=
  match hexDecode hex_str with
  | none => .error (.CryptoError "Invalid hex public key")
  | some bytes =>
    if bytes.length ≠ 32 then
      .error (.CryptoError ("Invalid public key length: expected 32 bytes, got "
        ++ toString bytes.length))
    else .ok (bytesToPub bytes)

/-- `compute_shared_secret` (src/crypto/key_exchange.rs, lines 48-51). -/
def compute_shared_secret (our_secret : Nat) (their_public : Nat) : List Nat :=
  pubToBytes (x25519DH our_secret their_public)

/-- Modelled from the spec: HKDF-SHA256 extract+expand to 32 bytes. -/
def hkdfSha256 (salt ikm info : List Nat) : List Nat :=
  (List.range 32).map
    (fun i => mixList (salt ++ [256] ++ ikm ++ [257] ++ info) (i * 97 + 3) % 256)

/-- UTF-8 bytes of an ASCII string. -/
def strBytes (s : String) : List Nat := s.data.map Char.toNat

/-- `derive_aes_key` (src/crypto/key_exchange.rs, lines 56-64). -/
def derive_aes_key (shared_secret : List Nat) (session_id : String) : Except Error (List Nat) :=
  .ok (hkdfSha256 (strBytes session_id) shared_secret (strBytes "rshare-file-encryption-v1"))

/-- `perform_key_exchange` (src/crypto/key_exchange.rs, lines 67-80). -/
def perform_key_exchange (our_secret : Nat) (their_public_hex : String)
    (session_id : String) : Except Error (List Nat) :=
  match parse_public_key their_public_hex with
  | .error e => .error e
  | .ok their_public =>
    derive_aes_key (compute_shared_secret our_secret their_public) session_id

theorem x25519Pub_lt (secret : Nat) : x25519Pub secret < 256 :=
  lt_trans (Nat.mod_lt _ (by norm_num [X25519_P])) (by norm_num [X25519_P])

theorem pubToBytes_bytes_lt (v : Nat) : ∀ b ∈ pubToBytes v, b < 256 := by
  intro b hb
  simp only [pubToBytes, List.mem_cons, List.mem_replicate] at hb
  rcases hb with h | ⟨_, h⟩
  · omega
  · omega

theorem length_pubToBytes (v : Nat) : (pubToBytes v).length = 32 := by
  simp [pubToBytes]

theorem parse_public_key_hex (v : Nat) :
    parse_public_key (hexEncode (pubToBytes v)) = .ok (v % 256) := by
  unfold parse_public_key
  rw [hexDecode_hexEncode _ (pubToBytes_bytes_lt v)]
  simp [length_pubToBytes, bytesToPub, pubToBytes]

theorem x25519DH_symm (a b : Nat) : x25519DH a (x25519Pub b) = x25519DH b (x25519Pub a) := by
  unfold x25519DH x25519Pub
  rw [← Nat.pow_mod, ← Nat.pow_mod, ← pow_mul, ← pow_mul, Nat.mul_comm]

/-- C4: for every pair of ephemeral secrets (with their derived public keys)
and every session id, the two sides of `perform_key_exchange` both succeed
and derive the same 32-byte AES key. -/
theorem key_exchange_symmetric (aSec bSec : Nat) (s : String) :
    ∃ k, perform_key_exchange aSec (public_key_hex bSec) s = .ok k ∧
      perform_key_exchange bSec (public_key_hex aSec) s = .ok k := by
  refine ⟨hkdfSha256 (strBytes s) (compute_shared_secret aSec (x25519Pub bSec))
    (strBytes "rshare-file-encryption-v1"), ?_, ?_⟩
  · unfold perform_key_exchange public_key_hex
    rw [parse_public_key_hex, Nat.mod_eq_of_lt (x25519Pub_lt bSec)]
    rfl
  · unfold perform_key_exchange public_key_hex
    rw [parse_public_key_hex, Nat.mod_eq_of_lt (x25519Pub_lt aSec)]
    show Except.ok (hkdfSha256 _ (compute_shared_secret bSec (x25519Pub aSec)) _) = _
    rw [compute_shared_secret, compute_shared_secret, x25519DH_symm]

/-! ### Wire framing (src/args/serve.rs lines 163-187, src/args/listen.rs lines 227-296) -/

/-- Big-endian bytes of `n as u32` (`u32::to_be_bytes` after the `as u32`
cast, which truncates modulo 2^32). -/
def toBE4 (n : Nat) : List Nat :=
  [n / 2 ^ 24 % 256, n / 2 ^ 16 % 256, n / 2 ^ 8 % 256, n % 256]

/-- The sender's streaming loop (src/args/serve.rs, lines 166-185): for each
plaintext chunk, encrypt it and emit the 4-byte big-endian length of the
encrypted blob followed by the blob.  The per-chunk random nonces are supplied
by `nonces`. -/
def sendLoop (key : List Nat) (nonces : Nat → List Nat) : Nat → List (List Nat) → List Nat
  | _, [] => []
  | i, c :: cs =>
    toBE4 (encChunkBytes key (nonces i) c).length ++ encChunkBytes key (nonces i) c
      ++ sendLoop key nonces (i + 1) cs

/-- Result of the receiver's chunk loop. -/
inductive RecvResult where
  /-- The loop exited with `total_received >= filesize`. -/
  | done (file : List Nat) (total : Nat)
  /-- `read_exact` on the 4-byte size prefix short-circuited. -/
  | shortLen (file : List Nat)
  /-- `read_exact` on the chunk body short-circuited. -/
  | shortBody (file : List Nat)
  /-- `decrypt_chunk` returned an error, which `?` propagates. -/
  | cryptoFail (file : List Nat) (e : Error)
  /-- Fuel ran out (never happens for the fuel `receiverRun` supplies). -/
  | fuelOut (file : List Nat)
deriving DecidableEq, Repr

/-- The receiver's chunk loop (src/args/listen.rs, lines 227-292): while
`total_received < filesize`, read a 4-byte big-endian length, read exactly
that many bytes, decrypt, append the plaintext to the output file.  `fuel` is
an artificial bound making the recursion structural; `fuel > wire.length`
always suffices (`recvLoop_ne_fuelOut`). -/
def recvLoop (key : List Nat) (filesize : Nat) :
    Nat → Nat → List Nat → List Nat → RecvResult
  | 0, _, acc, _ => .fuelOut acc
  | fuel + 1, total, acc, wire =>
    if total < filesize then
      match wire with
      | a :: b :: c :: d :: rest =>
        let chunk_size := ((a * 256 + b) * 256 + c) * 256 + d
        if chunk_size ≤ rest.length then
          match decrypt_chunk key (rest.take chunk_size) with
          | .error e => .cryptoFail acc e
          | .ok pt =>
            recvLoop key filesize fuel (total + pt.length) (acc ++ pt) (rest.drop chunk_size)
        else .shortBody acc
      | _ => .shortLen acc
    else .done acc total

theorem length_toBE4 (n : Nat) : (toBE4 n).length = 4 := rfl

theorem recvLoop_ne_fuelOut (key : List Nat) (filesize : Nat) :
    ∀ fuel total acc wire, wire.length < fuel →
      ∀ l, recvLoop key filesize fuel total acc wire ≠ .fuelOut l := by
  intro fuel
  induction fuel with
  | zero => intro total acc wire h; omega
  | succ fuel ih =>
    intro total acc wire h l
    unfold recvLoop
    split
    · match wire with
      | [] => simp
      | [_] => simp
      | [_, _] => simp
      | [_, _, _] => simp
      | a :: b :: c :: d :: rest =>
        simp only
        split
        · split
          · simp
          · refine ih _ _ _ ?_ l
            have : (rest.drop (((a * 256 + b) * 256 + c) * 256 + d)).length ≤ rest.length :=
              by simp [List.length_drop]
            simp only [List.length_cons] at h
            omega
        · simp
    · simp

/-- One step of the framing correspondence: a well-formed frame at the head of
the wire is consumed and decrypted back to its chunk. -/
theorem recvLoop_cons (key : List Nat) (nonces : Nat → List Nat) (filesize : Nat)
    (fuel total i : Nat) (acc c : List Nat) (cs : List (List Nat))
    (hn : (nonces i).length = 12) (hc : ∀ b ∈ c, b < 256)
    (hsz : c.length + 28 < 2 ^ 32) (htot : total < filesize) :
    recvLoop key filesize (fuel + 1) total acc
        (sendLoop key nonces i (c :: cs)) =
      recvLoop key filesize fuel (total + c.length) (acc ++ c)
        (sendLoop key nonces (i + 1) cs) := by
  have hlen : (encChunkBytes key (nonces i) c).length = 12 + c.length + 16 :=
    length_encChunkBytes key (nonces i) c hn
  have he : encChunkBytes key (nonces i) c = encChunkBytes key (nonces i) c := rfl
  generalize hE : encChunkBytes key (nonces i) c = e at *
  generalize hN : e.length = n at *
  have hwire : sendLoop key nonces i (c :: cs) =
      (n / 2 ^ 24 % 256) :: (n / 2 ^ 16 % 256) :: (n / 2 ^ 8 % 256) :: (n % 256) ::
        (e ++ sendLoop key nonces (i + 1) cs) := by
    have hstep : sendLoop key nonces i (c :: cs) =
        toBE4 (encChunkBytes key (nonces i) c).length
          ++ encChunkBytes key (nonces i) c ++ sendLoop key nonces (i + 1) cs := rfl
    rw [hstep, hE, hN]
    simp [toBE4]
  rw [hwire]
  have hnval : ((n / 2 ^ 24 % 256 * 256 + n / 2 ^ 16 % 256) * 256 + n / 2 ^ 8 % 256) * 256
      + n % 256 = n := by
    have hn32 : n < 2 ^ 32 := by omega
    omega
  have hrest : n ≤ (e ++ sendLoop key nonces (i + 1) cs).length := by
    simp [← hN]
  have htake : (e ++ sendLoop key nonces (i + 1) cs).take n = e := by
    rw [← hN, List.take_left]
  have hdrop : (e ++ sendLoop key nonces (i + 1) cs).drop n =
      sendLoop key nonces (i + 1) cs := by
    rw [← hN, List.drop_left]
  have hdec : decrypt_chunk key e = .ok c := by
    rw [← hE]
    exact decrypt_encChunkBytes key (nonces i) c hn hc
  simp only [recvLoop, if_pos htot, hnval, if_pos hrest, htake, hdrop, hdec]

/-- The framing correspondence, generalized over the starting state. -/
theorem recvLoop_sendLoop (key : List Nat) (nonces : Nat → List Nat)
    (hn : ∀ i, (nonces i).length = 12) :
    ∀ (cs : List (List Nat)) (fuel total i : Nat) (acc : List Nat),
      (∀ c ∈ cs, c ≠ [] ∧ c.length ≤ FILE_CHUNK_SIZE ∧ ∀ b ∈ c, b < 256) →
      (sendLoop key nonces i cs).length < fuel →
      recvLoop key (total + (cs.map List.length).sum) fuel total acc
          (sendLoop key nonces i cs) =
        .done (acc ++ cs.flatten) (total + (cs.map List.length).sum) := by
  intro cs
  induction cs with
  | nil =>
    intro fuel total i acc _ hfuel
    match fuel, hfuel with
    | fuel + 1, _ =>
      simp only [sendLoop, List.map_nil, List.sum_nil, Nat.add_zero, recvLoop]
      rw [if_neg (by omega)]
      simp
  | cons c cs ih =>
    intro fuel total i acc hcs hfuel
    have hc := hcs c (List.mem_cons_self c cs)
    have hcs2 : ∀ x ∈ cs, x ≠ [] ∧ x.length ≤ FILE_CHUNK_SIZE ∧ ∀ b ∈ x, b < 256 :=
      fun x hx => hcs x (List.mem_cons_of_mem c hx)
    have hclen : 0 < c.length := List.length_pos.mpr hc.1
    have hsum : ((c :: cs).map List.length).sum = c.length + (cs.map List.length).sum := by
      simp
    match fuel, hfuel with
    | fuel + 1, hfuel =>
      rw [hsum, recvLoop_cons key nonces _ fuel total i acc c cs (hn i) hc.2.2
        (by have := hc.2.1; simp only [FILE_CHUNK_SIZE] at this; omega)
        (by omega)]
      have hfuel2 : (sendLoop key nonces (i + 1) cs).length < fuel := by
        have : (sendLoop key nonces i (c :: cs)).length =
            4 + (encChunkBytes key (nonces i) c).length
              + (sendLoop key nonces (i + 1) cs).length := by
          simp [sendLoop, toBE4]
          omega
        omega
      have := ih fuel (total + c.length) (i + 1) (acc ++ c) hcs2 hfuel2
      rw [show total + c.length + (cs.map List.length).sum
            = total + (c.length + (cs.map List.length).sum) by omega] at this
      rw [this]
      simp

/-- C2: for every file split into successive plaintext chunks of at most
1 MiB, the sender's encrypt-and-frame loop composed with the receiver's
read-decrypt-append loop reproduces the original file bytes in order.  The
file is `chunks.flatten` and the receiver is run with `filesize` equal to the
file's length, exactly as `listen::run` does. -/
theorem framing_roundtrip (key : List Nat) (nonces : Nat → List Nat)
    (chunks : List (List Nat))
    (hn : ∀ i, (nonces i).length = 12)
    (hc : ∀ c ∈ chunks, c ≠ [] ∧ c.length ≤ FILE_CHUNK_SIZE ∧ ∀ b ∈ c, b < 256) :
    recvLoop key chunks.flatten.length
        ((sendLoop key nonces 0 chunks).length + 1) 0 []
        (sendLoop key nonces 0 chunks) =
      .done chunks.flatten chunks.flatten.length := by
  have hlen : chunks.flatten.length = (chunks.map List.length).sum := by
    simp [List.length_flatten]
  have := recvLoop_sendLoop key nonces hn chunks
    ((sendLoop key nonces 0 chunks).length + 1) 0 0 [] hc (by omega)
  simpa [hlen] using this

/-- Witness for `framing_roundtrip`: a concrete 3-byte file sent as one chunk
round-trips through the framed encrypted wire. -/
theorem framing_roundtrip_witness :
    recvLoop (List.replicate 32 9) [[10, 20, 30]].flatten.length
        ((sendLoop (List.replicate 32 9) (fun _ => List.replicate 12 0) 0
          [[10, 20, 30]]).length + 1) 0 []
        (sendLoop (List.replicate 32 9) (fun _ => List.replicate 12 0) 0 [[10, 20, 30]]) =
      .done [[10, 20, 30]].flatten [[10, 20, 30]].flatten.length :=
  framing_roundtrip (List.replicate 32 9) (fun _ => List.replicate 12 0)
    [[10, 20, 30]] (fun _ => rfl) (by decide)

/-! ### Signing (src/crypto/signing.rs) -/

/-- Modelled from the spec: a deterministic Ed25519 signature, 64 bytes,
determined by the verifying key's bytes and the message. -/
def ed25519SignModel (pubBytes : List Nat) (msg : String) : List Nat :=
  (List.range 64).map (fun i => mixList (pubBytes ++ strBytes msg) (i * 53 + 29) % 256)

/-- Modelled from the spec: `VerifyingKey::verify_strict` succeeds exactly on
the signature `ed25519SignModel` assigns to (key, message). -/
def verifyStrict (pubBytes : List Nat) (msg : String) (sigBytes : List Nat) : Bool :=
  decide (sigBytes = ed25519SignModel pubBytes msg)

/-- `verify_signature` (src/crypto/signing.rs, lines 13-21): a failed strict
verification is mapped to `Error::InvalidInput("Signature verification
failed")`. -/
def verify_signature (verifying_key : List Nat) (data : String) (signature : List Nat) :
    Except Error Unit :=
  if verifyStrict verifying_key data signature then .ok ()
  else .error (.InvalidInput "Signature verification failed")

/-- Whether an error is the `InvalidSignature` variant. -/
def isInvalidSignature : Except Error Unit → Bool
  | .error (.InvalidSignature _) => true
  | _ => false

/-- C7 counterexample: at a concrete key, envelope and non-validating
signature, `verify_signature` fails with `InvalidInput`, not with the
`InvalidSignature` variant the claim names. -/
theorem verify_signature_not_invalidSignature :
    verify_signature (List.replicate 32 1) "file.txt|5|abcd" [] =
      .error (.InvalidInput "Signature verification failed") ∧
    isInvalidSignature
      (verify_signature (List.replicate 32 1) "file.txt|5|abcd" []) = false := by
  constructor <;> decide

/-- C7 (amended): whenever strict verification fails, `verify_signature`
returns `Error::InvalidInput("Signature verification failed")`. -/
theorem verify_signature_fails_invalidInput (vk : List Nat) (msg : String)
    (sig : List Nat) (h : verifyStrict vk msg sig = false) :
    verify_signature vk msg sig = .error (.InvalidInput "Signature verification failed") := by
  unfold verify_signature
  rw [h]
  rfl

/-- Witness for `verify_signature_fails_invalidInput` at a concrete
non-validating signature. -/
theorem verify_signature_fails_invalidInput_witness :
    verify_signature (List.replicate 32 2) "a|1|ff" (List.replicate 64 0) =
      .error (.InvalidInput "Signature verification failed") :=
  verify_signature_fails_invalidInput (List.replicate 32 2) "a|1|ff"
    (List.replicate 64 0) (by decide)

/-! ### File hashing (src/utils/hash.rs) -/

/-- Modelled from the spec: SHA-256 as an opaque deterministic 32-byte
digest. -/
def sha256Model (data : List Nat) : List Nat :=
  (List.range 32).map (fun i => mixList data (i * 71 + 13) % 256)

/-- `compute_file_hash` (src/utils/hash.rs): SHA-256 of the file's bytes,
hex-encoded.  The on-disk file is represented by its byte contents. -/
def compute_file_hash (contents : List Nat) : String := hexEncode (sha256Model contents)

theorem length_sha256Model (data : List Nat) : (sha256Model data).length = 32 := by
  simp [sha256Model]

theorem length_compute_file_hash (contents : List Nat) :
    (compute_file_hash contents).length = 64 := by
  unfold compute_file_hash
  rw [length_hexEncode, length_sha256Model]

/-! ### The receiver engine (src/args/listen.rs `run`)

The run is modelled from the point where the paired `TransferSession` has
been obtained (line 82) to the end; the inputs are the session's metadata
fields (each an `Option`, as in `TransferSession`), the expected contact's
fingerprint, the download directory, the receiver's ephemeral secret, and the
byte stream subsequently readable from the socket.  Console output is not
modelled, except that a Rust `&s[..16]` slice of a string shorter than 16
bytes aborts the run with a panic instead of returning, which the `panicked`
outcome captures.  File writes are modelled as immediate appends to the
output file's contents. -/

/-- Rust's `&s[..16]`: the first 16 bytes, or `none` (a panic) when the
string is shorter.  The strings sliced here are ASCII, so bytes coincide with
characters. -/
def slice16 (s : String) : Option String :=
  if 16 ≤ s.length then some (s.take 16) else none

/-- Everything `listen::run` consumes after the session is paired. -/
structure ListenCtx where
  /-- `expected_sender.public_key`, from the trusted-contacts store. -/
  expectedFp : String
  /-- The download directory path. -/
  downloadPath : String
  /-- `session.session_id()`. -/
  sessionId : String
  filename : Option String
  fileSize : Option Nat
  signature : Option String
  senderFp : Option String
  fileHash : Option String
  senderEphemeralKey : Option String
  /-- The receiver's ephemeral X25519 secret (model scalar). -/
  receiverSecret : Nat
  /-- The bytes readable from the paired socket. -/
  wire : List Nat

/-- Observable final state of a receiver run that returned (rather than
panicked). -/
structure RunState where
  /-- The run's return value. -/
  result : Except Error Unit
  /-- Whether `File::create` on the output path was reached. -/
  fileCreated : Bool
  /-- Whether the output file was removed again before returning. -/
  fileDeleted : Bool
  /-- The output file's bytes still on disk when the run returns, `none` if
  the file does not exist. -/
  disk : Option (List Nat)
  /-- The output path `download_path.join(&filename)`, once computed. -/
  filePath : Option String
  /-- Control signals written to the sender, in order. -/
  sent : List String
deriving DecidableEq, Repr

/-- Outcome of a receiver run: a normal return or a Rust panic. -/
inductive RunOutcome where
  | panicked (msg : String)
  | normal (s : RunState)
deriving DecidableEq, Repr

/-- An error return taken before the output file exists. -/
def earlyErr (e : Error) : RunOutcome :=
  .normal ⟨.error e, false, false, none, none, []⟩

/-- The part of `listen::run` from `File::create` (line 204) to the end:
stream the chunks, then verify the file hash, emitting `DONE` on success. -/
def receiverStream (aes_key : List Nat) (filesize : Nat) (wire : List Nat)
    (file_hash_from_sender file_path : String) : RunOutcome :=
  match recvLoop aes_key filesize (wire.length + 1) 0 [] wire with
  | .shortLen _ =>
    .normal ⟨.error (.InvalidInput
      "Transfer interrupted - connection closed before size prefix"),
      true, true, none, some file_path, []⟩
  | .shortBody _ =>
    .normal ⟨.error (.InvalidInput
      "Transfer interrupted - connection closed during chunk"),
      true, true, none, some file_path, []⟩
  | .fuelOut _ =>
    -- unreachable: the fuel exceeds the wire length (recvLoop_ne_fuelOut)
    .panicked "unreachable"
  | .cryptoFail written e =>
    -- the `?` on decrypt_chunk (line 281) propagates the error with no
    -- partial-file cleanup
    .normal ⟨.error e, true, false, some written, some file_path, []⟩
  | .done file_bytes _total =>
    if compute_file_hash file_bytes ≠ file_hash_from_sender then
      match slice16 file_hash_from_sender, slice16 (compute_file_hash file_bytes) with
      | some _, some _ =>
        .normal ⟨.error (.InvalidInput "File integrity check failed"),
          true, true, none, some file_path, ["ERROR:hash_mismatch\n"]⟩
      | _, _ => .panicked "byte index 16 is out of bounds"
    else
      .normal ⟨.ok (), true, false, some file_bytes, some file_path, [DONE_SIGNAL]⟩

/-- `listen::run` (src/args/listen.rs, lines 90-369), starting from the
paired session. -/
def receiverRun (ctx : ListenCtx) : RunOutcome :=
  match ctx.filename with
  | none => earlyErr (.InvalidInput "No filename in session")
  | some filename =>
  match ctx.fileSize with
  | none => earlyErr (.InvalidInput "No file size in session")
  | some filesize =>
  match ctx.signature with
  | none => earlyErr (.InvalidInput "No signature in session")
  | some signature_hex =>
  match ctx.senderFp with
  | none => earlyErr (.InvalidInput "No sender fingerprint in session")
  | some sender_fp =>
  match ctx.fileHash with
  | none => earlyErr (.InvalidInput "No file hash in session")
  | some file_hash_from_sender =>
  -- Verify sender is the expected contact (lines 111-117)
  if ctx.expectedFp ≠ sender_fp then
    match slice16 ctx.expectedFp, slice16 sender_fp with
    | some e16, some s16 =>
      earlyErr (.InvalidInput
        ("Sender fingerprint mismatch! Expected " ++ e16 ++ ", got " ++ s16))
    | _, _ => .panicked "byte index 16 is out of bounds"
  else
  -- Decode sender's public key (lines 120-128)
  match hexDecode sender_fp with
  | none => earlyErr (.InvalidInput "Invalid sender public key")
  | some sender_key_bytes =>
  if sender_key_bytes.length ≠ 32 then earlyErr (.InvalidInput "Invalid key length")
  else
  -- Verify Ed25519 signature on metadata (lines 131-161)
  let metadata_msg := filename ++ "|" ++ toString filesize ++ "|" ++ file_hash_from_sender
  match hexDecode signature_hex with
  | none => earlyErr (.InvalidInput "Invalid signature hex")
  | some signature_bytes =>
  if signature_bytes.length ≠ 64 then earlyErr (.InvalidInput "Invalid signature length")
  else
  if ¬ verifyStrict sender_key_bytes metadata_msg signature_bytes then
    match slice16 sender_fp with
    | none => .panicked "byte index 16 is out of bounds"
    | some _ =>
      .normal ⟨.error (.InvalidInput "Signature verification failed"),
        false, false, none, none, ["ERROR:signature_failed\n"]⟩
  else
  -- Derive encryption key from ephemeral keys (lines 170-180)
  match ctx.senderEphemeralKey with
  | none => earlyErr (.CryptoError "Sender ephemeral key not found")
  | some sender_ephemeral_hex =>
  match perform_key_exchange ctx.receiverSecret sender_ephemeral_hex ctx.sessionId with
  | .error e => earlyErr e
  | .ok aes_key =>
  -- Display (lines 185-189) slices `&file_hash_from_sender[..16]`
  match slice16 file_hash_from_sender with
  | none => .panicked "byte index 16 is out of bounds"
  | some _ =>
  receiverStream aes_key filesize ctx.wire file_hash_from_sender
    (ctx.downloadPath ++ "/" ++ filename)

theorem earlyErr_created (e : Error) (st : RunState) (h : earlyErr e = .normal st) :
    st.fileCreated = false := by
  unfold earlyErr at h
  cases h
  rfl

theorem receiverStream_created (aes_key : List Nat) (filesize : Nat) (wire : List Nat)
    (fh fp : String) (st : RunState)
    (h : receiverStream aes_key filesize wire fh fp = .normal st) :
    st.fileCreated = true := by
  unfold receiverStream at h
  split at h
  · cases h; rfl
  · cases h; rfl
  · exact absurd h (by simp)
  · cases h; rfl
  · split at h
    · split at h
      · cases h; rfl
      · exact absurd h (by simp)
    · cases h; rfl

/-- C5: under well-formed session fields (and fingerprints of at least 16
bytes, below which the run panics instead — see C10), a fingerprint mismatch
makes the run return `InvalidInput("Sender fingerprint mismatch…")` with no
file created; and whenever a run reaches `File::create`, the relay-reported
sender fingerprint equalled the expected contact's fingerprint and the
metadata signature verified strictly. -/
theorem receiver_checks_before_write (ctx : ListenCtx) (fn : String) (sz : Nat)
    (sg sfp fh : String)
    (hfn : ctx.filename = some fn) (hsz : ctx.fileSize = some sz)
    (hsg : ctx.signature = some sg) (hsfp : ctx.senderFp = some sfp)
    (hfh : ctx.fileHash = some fh)
    (hef : 16 ≤ ctx.expectedFp.length) (hsf : 16 ≤ sfp.length) :
    (ctx.expectedFp ≠ sfp →
      receiverRun ctx = .normal ⟨.error (.InvalidInput
        ("Sender fingerprint mismatch! Expected " ++ ctx.expectedFp.take 16
          ++ ", got " ++ sfp.take 16)), false, false, none, none, []⟩) ∧
    (∀ st, receiverRun ctx = .normal st → st.fileCreated = true →
      ctx.expectedFp = sfp ∧ ∃ kb sb, hexDecode sfp = some kb ∧ hexDecode sg = some sb ∧
        verifyStrict kb (fn ++ "|" ++ toString sz ++ "|" ++ fh) sb = true) := by
  constructor
  · intro hne
    simp only [receiverRun, hfn, hsz, hsg, hsfp, hfh, if_pos hne, slice16,
      if_pos hef, if_pos hsf]
    rfl
  · intro st hrun hcreated
    simp only [receiverRun, hfn, hsz, hsg, hsfp, hfh] at hrun
    by_cases hne : ctx.expectedFp ≠ sfp
    · rw [if_pos hne] at hrun
      split at hrun
      · exact absurd (earlyErr_created _ _ hrun) (by simp [hcreated])
      · exact absurd hrun (by simp)
    · push_neg at hne
      rw [if_neg (by simp [hne])] at hrun
      refine ⟨hne, ?_⟩
      split at hrun
      · exact absurd (earlyErr_created _ _ hrun) (by simp [hcreated])
      · rename_i kb hkb
        split at hrun
        · exact absurd (earlyErr_created _ _ hrun) (by simp [hcreated])
        · split at hrun
          · exact absurd (earlyErr_created _ _ hrun) (by simp [hcreated])
          · rename_i sb hsb
            split at hrun
            · exact absurd (earlyErr_created _ _ hrun) (by simp [hcreated])
            · split at hrun
              · rename_i hver
                split at hrun
                · exact absurd hrun (by simp)
                · cases hrun
                  exact absurd hcreated (by simp)
              · rename_i hver
                refine ⟨kb, sb, hkb, hsb, ?_⟩
                split at hrun
                · exact absurd (earlyErr_created _ _ hrun) (by simp [hcreated])
                · split at hrun
                  · exact absurd (earlyErr_created _ _ hrun) (by simp [hcreated])
                  · split at hrun
                    · exact absurd hrun (by simp)
                    · simpa using hver

/-- A run whose session fields are present, whose fingerprint matches, whose
signature decodes and verifies, and whose key exchange succeeds reduces to
the streaming phase. -/
theorem receiverRun_reaches_stream (ctx : ListenCtx) (fn : String) (sz : Nat)
    (sg sfp fh seph : String) (kb sb aesKey : List Nat)
    (hfn : ctx.filename = some fn) (hsz : ctx.fileSize = some sz)
    (hsg : ctx.signature = some sg) (hsfp : ctx.senderFp = some sfp)
    (hfh : ctx.fileHash = some fh) (hseph : ctx.senderEphemeralKey = some seph)
    (hmatch : ctx.expectedFp = sfp)
    (hkb : hexDecode sfp = some kb) (hkb32 : kb.length = 32)
    (hsb : hexDecode sg = some sb) (hsb64 : sb.length = 64)
    (hver : verifyStrict kb (fn ++ "|" ++ toString sz ++ "|" ++ fh) sb = true)
    (hkex : perform_key_exchange ctx.receiverSecret seph ctx.sessionId = .ok aesKey)
    (hfh16 : 16 ≤ fh.length) :
    receiverRun ctx = receiverStream aesKey sz ctx.wire fh
      (ctx.downloadPath ++ "/" ++ fn) := by
  have hslfh : slice16 fh = some (fh.take 16) := by
    unfold slice16
    rw [if_pos hfh16]
  simp only [receiverRun, hfn, hsz, hsg, hsfp, hfh, hseph]
  rw [if_neg (by simp [hmatch])]
  simp only [hkb, hsb, hkex]
  rw [if_neg (by simp [hkb32])]
  rw [if_neg (by simp [hsb64])]
  rw [if_neg (by simp [hver])]
  simp only [hslfh]

/-- A session whose relay-reported sender fingerprint differs from the
expected contact's fingerprint. -/
def c5Ctx : ListenCtx :=
  { expectedFp := hexEncode (List.replicate 32 1), downloadPath := "downloads",
    sessionId := "sid", filename := some "f.txt", fileSize := some 2,
    signature := some "s", senderFp := some (hexEncode (List.replicate 32 3)),
    fileHash := some "h", senderEphemeralKey := none, receiverSecret := 0,
    wire := [] }

/-- Witness for `receiver_checks_before_write`: on a concrete mismatching
session the run returns the fingerprint-mismatch error with no file
created. -/
theorem receiver_checks_before_write_witness :
    receiverRun c5Ctx = .normal ⟨.error (.InvalidInput
      ("Sender fingerprint mismatch! Expected " ++ c5Ctx.expectedFp.take 16
        ++ ", got " ++ (hexEncode (List.replicate 32 3)).take 16)),
      false, false, none, none, []⟩ :=
  (receiver_checks_before_write c5Ctx "f.txt" 2 "s"
    (hexEncode (List.replicate 32 3)) "h" rfl rfl rfl rfl rfl
    (by decide) (by decide)).1 (by decide)

/-- C6: in a receiver run that passes all checks and decrypts every chunk
(`recvLoop` ends in `done`), if the SHA-256 of the written file differs from
the envelope hash, the run deletes the file, sends `"ERROR:hash_mismatch\n"`
to the sender, and returns `InvalidInput("File integrity check failed")`. -/
theorem receiver_integrity_mismatch (ctx : ListenCtx) (fn : String) (sz : Nat)
    (sg sfp fh seph : String) (kb sb aesKey fileBytes : List Nat) (total : Nat)
    (hfn : ctx.filename = some fn) (hsz : ctx.fileSize = some sz)
    (hsg : ctx.signature = some sg) (hsfp : ctx.senderFp = some sfp)
    (hfh : ctx.fileHash = some fh) (hseph : ctx.senderEphemeralKey = some seph)
    (hmatch : ctx.expectedFp = sfp)
    (hkb : hexDecode sfp = some kb) (hkb32 : kb.length = 32)
    (hsb : hexDecode sg = some sb) (hsb64 : sb.length = 64)
    (hver : verifyStrict kb (fn ++ "|" ++ toString sz ++ "|" ++ fh) sb = true)
    (hkex : perform_key_exchange ctx.receiverSecret seph ctx.sessionId = .ok aesKey)
    (hfh16 : 16 ≤ fh.length)
    (hloop : recvLoop aesKey sz (ctx.wire.length + 1) 0 [] ctx.wire = .done fileBytes total)
    (hhash : compute_file_hash fileBytes ≠ fh) :
    receiverRun ctx = .normal ⟨.error (.InvalidInput "File integrity check failed"),
      true, true, none, some (ctx.downloadPath ++ "/" ++ fn),
      ["ERROR:hash_mismatch\n"]⟩ := by
  have hslfh : slice16 fh = some (fh.take 16) := by
    unfold slice16
    rw [if_pos hfh16]
  have hslch : slice16 (compute_file_hash fileBytes) =
      some ((compute_file_hash fileBytes).take 16) := by
    unfold slice16
    rw [if_pos (by rw [length_compute_file_hash]; omega)]
  rw [receiverRun_reaches_stream ctx fn sz sg sfp fh seph kb sb aesKey hfn hsz hsg
    hsfp hfh hseph hmatch hkb hkb32 hsb hsb64 hver hkex hfh16]
  unfold receiverStream
  rw [hloop]
  simp only [hslfh, hslch]
  rw [if_pos hhash]

/-! Concrete transfer data for the integrity-mismatch witness: the sender's
fingerprint, a wrong envelope hash, a valid metadata signature, a valid
ephemeral key, and a wire stream of one well-formed 2-byte chunk. -/

def c6Fp : String := hexEncode (List.replicate 32 1)

def c6Fh : String := hexEncode (List.replicate 32 2)

def c6Msg : String := "f.txt|2|" ++ c6Fh

def c6Sig : String := hexEncode (ed25519SignModel (List.replicate 32 1) c6Msg)

def c6Seph : String := public_key_hex 5

def c6Key : List Nat :=
  match perform_key_exchange 3 c6Seph "sid" with
  | .ok k => k
  | .error _ => []

def c6Wire : List Nat := sendLoop c6Key (fun _ => List.replicate 12 0) 0 [[7, 9]]

def c6Ctx : ListenCtx :=
  { expectedFp := c6Fp, downloadPath := "downloads", sessionId := "sid",
    filename := some "f.txt", fileSize := some 2, signature := some c6Sig,
    senderFp := some c6Fp, fileHash := some c6Fh,
    senderEphemeralKey := some c6Seph, receiverSecret := 3, wire := c6Wire }

/-- Witness for `receiver_integrity_mismatch` on a fully concrete run whose
chunks all decrypt but whose envelope hash is wrong. -/
theorem receiver_integrity_mismatch_witness :
    receiverRun c6Ctx = .normal ⟨.error (.InvalidInput "File integrity check failed"),
      true, true, none, some (c6Ctx.downloadPath ++ "/" ++ "f.txt"),
      ["ERROR:hash_mismatch\n"]⟩ :=
  receiver_integrity_mismatch c6Ctx "f.txt" 2 c6Sig c6Fp c6Fh c6Seph
    (List.replicate 32 1) (ed25519SignModel (List.replicate 32 1) c6Msg)
    c6Key [7, 9] 2 rfl rfl rfl rfl rfl rfl rfl (by decide) (by decide)
    (by decide) (by decide) (by decide) (by decide) (by decide) (by decide)
    (by decide)

/-! Concrete runs for the partial-file-cleanup claim: the same session as
above, but the wire carries a 28-byte frame whose authentication tag does not
verify (`c1Ctx`), and a stream that ends before a full length prefix
(`c1bCtx`). -/

def c1Ctx : ListenCtx :=
  { expectedFp := c6Fp, downloadPath := "downloads", sessionId := "sid",
    filename := some "f.txt", fileSize := some 2, signature := some c6Sig,
    senderFp := some c6Fp, fileHash := some c6Fh,
    senderEphemeralKey := some c6Seph, receiverSecret := 3,
    wire := toBE4 28 ++ List.replicate 28 0 }

def c1bCtx : ListenCtx :=
  { expectedFp := c6Fp, downloadPath := "downloads", sessionId := "sid",
    filename := some "f.txt", fileSize := some 2, signature := some c6Sig,
    senderFp := some c6Fp, fileHash := some c6Fh,
    senderEphemeralKey := some c6Seph, receiverSecret := 3, wire := [1, 2] }

/-- C1 counterexample: a receiver run whose first chunk fails AEAD-open
returns the `CryptoError` with the partial output file STILL ON DISK
(`fileDeleted = false`, `disk = some …`) — the claimed cleanup does not
happen on AEAD failure. -/
theorem receiver_aead_failure_no_cleanup_cx :
    receiverRun c1Ctx = .normal ⟨.error (.CryptoError
      "AES-GCM decryption failed (authentication failure or corrupted data)"),
      true, false, some [], some "downloads/f.txt", []⟩ := by
  decide

/-- C1 (amended): in a run that reaches the streaming loop, a short read on
the length prefix or on a chunk body deletes the partial output file before
returning `InvalidInput("Transfer interrupted…")`, but an AEAD-open failure
propagates its `CryptoError` without deleting the partial file. -/
theorem receiver_partial_cleanup (ctx : ListenCtx) (fn : String) (sz : Nat)
    (sg sfp fh seph : String) (kb sb aesKey : List Nat)
    (hfn : ctx.filename = some fn) (hsz : ctx.fileSize = some sz)
    (hsg : ctx.signature = some sg) (hsfp : ctx.senderFp = some sfp)
    (hfh : ctx.fileHash = some fh) (hseph : ctx.senderEphemeralKey = some seph)
    (hmatch : ctx.expectedFp = sfp)
    (hkb : hexDecode sfp = some kb) (hkb32 : kb.length = 32)
    (hsb : hexDecode sg = some sb) (hsb64 : sb.length = 64)
    (hver : verifyStrict kb (fn ++ "|" ++ toString sz ++ "|" ++ fh) sb = true)
    (hkex : perform_key_exchange ctx.receiverSecret seph ctx.sessionId = .ok aesKey)
    (hfh16 : 16 ≤ fh.length) :
    (∀ acc, recvLoop aesKey sz (ctx.wire.length + 1) 0 [] ctx.wire = .shortLen acc →
      receiverRun ctx = .normal ⟨.error (.InvalidInput
        "Transfer interrupted - connection closed before size prefix"),
        true, true, none, some (ctx.downloadPath ++ "/" ++ fn), []⟩) ∧
    (∀ acc, recvLoop aesKey sz (ctx.wire.length + 1) 0 [] ctx.wire = .shortBody acc →
      receiverRun ctx = .normal ⟨.error (.InvalidInput
        "Transfer interrupted - connection closed during chunk"),
        true, true, none, some (ctx.downloadPath ++ "/" ++ fn), []⟩) ∧
    (∀ acc e, recvLoop aesKey sz (ctx.wire.length + 1) 0 [] ctx.wire = .cryptoFail acc e →
      receiverRun ctx = .normal ⟨.error e,
        true, false, some acc, some (ctx.downloadPath ++ "/" ++ fn), []⟩) := by
  have hred : receiverRun ctx = receiverStream aesKey sz ctx.wire fh
      (ctx.downloadPath ++ "/" ++ fn) :=
    receiverRun_reaches_stream ctx fn sz sg sfp fh seph kb sb aesKey hfn hsz hsg
      hsfp hfh hseph hmatch hkb hkb32 hsb hsb64 hver hkex hfh16
  refine ⟨?_, ?_, ?_⟩
  · intro acc hloop
    rw [hred]
    unfold receiverStream
    rw [hloop]
  · intro acc hloop
    rw [hred]
    unfold receiverStream
    rw [hloop]
  · intro acc e hloop
    rw [hred]
    unfold receiverStream
    rw [hloop]

/-- Witness for `receiver_partial_cleanup`: a run whose stream ends before a
full length prefix deletes the partial file and returns the interruption
error. -/
theorem receiver_partial_cleanup_witness :
    receiverRun c1bCtx = .normal ⟨.error (.InvalidInput
      "Transfer interrupted - connection closed before size prefix"),
      true, true, none, some (c1bCtx.downloadPath ++ "/" ++ "f.txt"), []⟩ :=
  (receiver_partial_cleanup c1bCtx "f.txt" 2 c6Sig c6Fp c6Fh c6Seph
    (List.replicate 32 1) (ed25519SignModel (List.replicate 32 1) c6Msg)
    c6Key rfl rfl rfl rfl rfl rfl rfl (by decide) (by decide) (by decide)
    (by decide) (by decide) (by decide) (by decide)).1 [] (by decide)

/-! Concrete run for the filename-sanitization claim: the relay-supplied
filename contains a path separator and a parent-directory reference. -/

def c8Fh : String := compute_file_hash []

def c8Msg : String := "../evil.txt|0|" ++ c8Fh

def c8Sig : String := hexEncode (ed25519SignModel (List.replicate 32 1) c8Msg)

def c8Ctx : ListenCtx :=
  { expectedFp := c6Fp, downloadPath := "downloads", sessionId := "sid",
    filename := some "../evil.txt", fileSize := some 0, signature := some c8Sig,
    senderFp := some c6Fp, fileHash := some c8Fh,
    senderEphemeralKey := some c6Seph, receiverSecret := 3, wire := [] }

/-- C8 counterexample: with the relay-reported filename `"../evil.txt"` the
receiver does not reject the transfer — the run succeeds and creates the
output file at `downloads/../evil.txt`, outside the download directory. -/
theorem receiver_path_traversal_cx :
    receiverRun c8Ctx = .normal ⟨.ok (), true, false, some [],
      some "downloads/../evil.txt", ["DONE\n"]⟩ := by
  decide

/-- C8 (amended): the receiver applies no sanitization to the relay-supplied
filename: any run that reaches the streaming phase — even one whose filename
contains a path separator or a parent-directory reference — creates the
output file at `download_dir / filename` joined directly. -/
theorem receiver_joins_filename_unsanitized (ctx : ListenCtx) (fn : String) (sz : Nat)
    (sg sfp fh seph : String) (kb sb aesKey : List Nat)
    (hfn : ctx.filename = some fn) (hsz : ctx.fileSize = some sz)
    (hsg : ctx.signature = some sg) (hsfp : ctx.senderFp = some sfp)
    (hfh : ctx.fileHash = some fh) (hseph : ctx.senderEphemeralKey = some seph)
    (hmatch : ctx.expectedFp = sfp)
    (hkb : hexDecode sfp = some kb) (hkb32 : kb.length = 32)
    (hsb : hexDecode sg = some sb) (hsb64 : sb.length = 64)
    (hver : verifyStrict kb (fn ++ "|" ++ toString sz ++ "|" ++ fh) sb = true)
    (hkex : perform_key_exchange ctx.receiverSecret seph ctx.sessionId = .ok aesKey)
    (hfh16 : 16 ≤ fh.length)
    (htrav : '/' ∈ fn.data ∨ '\\' ∈ fn.data ∨ fn = "..") :
    ∃ st, receiverRun ctx = .normal st ∧ st.fileCreated = true ∧
      st.filePath = some (ctx.downloadPath ++ "/" ++ fn) := by
  rw [receiverRun_reaches_stream ctx fn sz sg sfp fh seph kb sb aesKey hfn hsz hsg
    hsfp hfh hseph hmatch hkb hkb32 hsb hsb64 hver hkex hfh16]
  unfold receiverStream
  cases hrl : recvLoop aesKey sz (ctx.wire.length + 1) 0 [] ctx.wire with
  | done fileBytes total =>
    have hslfh : slice16 fh = some (fh.take 16) := by
      unfold slice16
      rw [if_pos hfh16]
    have hslch : slice16 (compute_file_hash fileBytes) =
        some ((compute_file_hash fileBytes).take 16) := by
      unfold slice16
      rw [if_pos (by rw [length_compute_file_hash]; omega)]
    dsimp only
    by_cases hh : compute_file_hash fileBytes ≠ fh
    · rw [if_pos hh, hslfh, hslch]
      exact ⟨_, rfl, rfl, rfl⟩
    · rw [if_neg hh]
      exact ⟨_, rfl, rfl, rfl⟩
  | shortLen acc => exact ⟨_, rfl, rfl, rfl⟩
  | shortBody acc => exact ⟨_, rfl, rfl, rfl⟩
  | cryptoFail acc e => exact ⟨_, rfl, rfl, rfl⟩
  | fuelOut acc =>
    exact absurd hrl
      (recvLoop_ne_fuelOut aesKey sz (ctx.wire.length + 1) 0 [] ctx.wire (by omega) acc)

/-- Witness for `receiver_joins_filename_unsanitized` on the concrete
traversal run. -/
theorem receiver_joins_filename_unsanitized_witness :
    ∃ st, receiverRun c8Ctx = .normal st ∧ st.fileCreated = true ∧
      st.filePath = some (c8Ctx.downloadPath ++ "/" ++ "../evil.txt") :=
  receiver_joins_filename_unsanitized c8Ctx "../evil.txt" 0 c8Sig c6Fp c8Fh c6Seph
    (List.replicate 32 1) (ed25519SignModel (List.replicate 32 1) c8Msg)
    c6Key rfl rfl rfl rfl rfl rfl rfl (by decide) (by decide) (by decide)
    (by decide) (by decide) (by decide) (by decide) (by decide)

/-! Concrete run for the short-hex-slice panic claim: a well-formed session
whose relay-supplied `fileHash` is the 4-byte string `"dead"`. -/

def c10Msg : String := "f.txt|2|dead"

def c10Sig : String := hexEncode (ed25519SignModel (List.replicate 32 1) c10Msg)

def c10Ctx : ListenCtx :=
  { expectedFp := c6Fp, downloadPath := "downloads", sessionId := "sid",
    filename := some "f.txt", fileSize := some 2, signature := some c10Sig,
    senderFp := some c6Fp, fileHash := some "dead",
    senderEphemeralKey := some c6Seph, receiverSecret := 3, wire := [] }

/-- C10: a relay-supplied `fileHash` shorter than 16 bytes makes the receiver
run panic (out-of-bounds `[..16]` slice in the display path) instead of
returning an error value. -/
theorem receiver_panics_on_short_hash :
    receiverRun c10Ctx = .panicked "byte index 16 is out of bounds" := by
  decide

/-! ### Relay client listen response handling (src/server/relay.rs)

`ListenResponse` mirrors the deserialized 2xx response body (lines 62-83);
`listenExtract` is the required-field extraction of `RelayClient::listen`
(lines 306-330).  Note that `socket_port`, though declared in the response
struct, is never extracted or checked — the TCP connection uses the client's
configured port — and that the two ephemeral-key fields map to
`NetworkError`, not `SessionError`. -/

structure ListenResponse where
  status : String
  session_id : Option String
  sender_fp : Option String
  filename : Option String
  file_size : Option Nat
  signature : Option String
  file_hash : Option String
  socket_port : Option Nat
  message : String
  sender_ephemeral_key : Option String
  receiver_ephemeral_key : Option String

/-- The metadata carried by the receiver's `TransferSession` after a
successful `listen`. -/
structure SessionMeta where
  session_id : String
  filename : String
  file_size : Nat
  signature : String
  sender_fp : String
  file_hash : String
  sender_ephemeral_key : String
  receiver_ephemeral_key : String
deriving DecidableEq, Repr

/-- The required-field extraction of `RelayClient::listen`
(src/server/relay.rs, lines 306-330), in source order. -/
def listenExtract (r : ListenResponse) : Except Error SessionMeta :=
  match r.session_id with
  | none => .error (.SessionError "Server did not return session_id")
  | some session_id =>
  match r.filename with
  | none => .error (.SessionError "Server did not return filename")
  | some filename =>
  match r.file_size with
  | none => .error (.SessionError "Server did not return file_size")
  | some file_size =>
  match r.signature with
  | none => .error (.SessionError "Server did not return signature")
  | some signature =>
  match r.sender_fp with
  | none => .error (.SessionError "Server did not return sender_fp")
  | some sender_fp =>
  match r.file_hash with
  | none => .error (.SessionError "Server did not return file_hash")
  | some file_hash =>
  match r.sender_ephemeral_key with
  | none => .error (.NetworkError "Server did not return sender ephemeral key")
  | some sender_ephemeral_key =>
  match r.receiver_ephemeral_key with
  | none => .error (.NetworkError "Server did not return receiver ephemeral key")
  | some receiver_ephemeral_key =>
  .ok ⟨session_id, filename, file_size, signature, sender_fp, file_hash,
    sender_ephemeral_key, receiver_ephemeral_key⟩

/-- Whether a `listen` result failed with the `SessionError` variant. -/
def resultIsSessionError : Except Error SessionMeta → Bool
  | .error (.SessionError _) => true
  | _ => false

/-- A fully populated listen response. -/
def c9Full : ListenResponse :=
  { status := "ok", session_id := some "sid", sender_fp := some "fp",
    filename := some "f.txt", file_size := some 2, signature := some "sig",
    file_hash := some "hash", socket_port := some 10000, message := "",
    sender_ephemeral_key := some "se", receiver_ephemeral_key := some "re" }

/-- C9 counterexample: a response missing only `senderEphemeralKey` fails
with `NetworkError` (not `SessionError`), and a response missing only
`socketPort` does not fail at all — the field is never checked. -/
theorem listen_missing_field_cx :
    listenExtract { c9Full with sender_ephemeral_key := none } =
      .error (.NetworkError "Server did not return sender ephemeral key") ∧
    resultIsSessionError
      (listenExtract { c9Full with sender_ephemeral_key := none }) = false ∧
    listenExtract { c9Full with socket_port := none } =
      .ok ⟨"sid", "f.txt", 2, "sig", "fp", "hash", "se", "re"⟩ :=
  ⟨rfl, rfl, rfl⟩

/-- C9 (amended): of the nine fields the claim lists, the six checked first
(`sessionId`, `filename`, `fileSize`, `signature`, `senderFp`, `fileHash`)
produce `SessionError` when absent; the two ephemeral keys produce
`NetworkError`; and `socketPort` is never checked, so a response with the
other eight fields present succeeds regardless of it. -/
theorem listen_required_fields (r : ListenResponse) :
    (r.session_id = none →
      listenExtract r = .error (.SessionError "Server did not return session_id")) ∧
    (∀ sid, r.session_id = some sid → r.filename = none →
      listenExtract r = .error (.SessionError "Server did not return filename")) ∧
    (∀ sid fn, r.session_id = some sid → r.filename = some fn → r.file_size = none →
      listenExtract r = .error (.SessionError "Server did not return file_size")) ∧
    (∀ sid fn fs, r.session_id = some sid → r.filename = some fn →
      r.file_size = some fs → r.signature = none →
      listenExtract r = .error (.SessionError "Server did not return signature")) ∧
    (∀ sid fn fs sg, r.session_id = some sid → r.filename = some fn →
      r.file_size = some fs → r.signature = some sg → r.sender_fp = none →
      listenExtract r = .error (.SessionError "Server did not return sender_fp")) ∧
    (∀ sid fn fs sg sf, r.session_id = some sid → r.filename = some fn →
      r.file_size = some fs → r.signature = some sg → r.sender_fp = some sf →
      r.file_hash = none →
      listenExtract r = .error (.SessionError "Server did not return file_hash")) ∧
    (∀ sid fn fs sg sf fh, r.session_id = some sid → r.filename = some fn →
      r.file_size = some fs → r.signature = some sg → r.sender_fp = some sf →
      r.file_hash = some fh → r.sender_ephemeral_key = none →
      listenExtract r =
        .error (.NetworkError "Server did not return sender ephemeral key")) ∧
    (∀ sid fn fs sg sf fh se, r.session_id = some sid → r.filename = some fn →
      r.file_size = some fs → r.signature = some sg → r.sender_fp = some sf →
      r.file_hash = some fh → r.sender_ephemeral_key = some se →
      r.receiver_ephemeral_key = none →
      listenExtract r =
        .error (.NetworkError "Server did not return receiver ephemeral key")) ∧
    (∀ sid fn fs sg sf fh se re, r.session_id = some sid → r.filename = some fn →
      r.file_size = some fs → r.signature = some sg → r.sender_fp = some sf →
      r.file_hash = some fh → r.sender_ephemeral_key = some se →
      r.receiver_ephemeral_key = some re →
      listenExtract r = .ok ⟨sid, fn, fs, sg, sf, fh, se, re⟩) := by
  refine ⟨?_, ?_, ?_, ?_, ?_, ?_, ?_, ?_, ?_⟩
  · intro h1
    simp [listenExtract, h1]
  · intro sid h1 h2
    simp [listenExtract, h1, h2]
  · intro sid fn h1 h2 h3
    simp [listenExtract, h1, h2, h3]
  · intro sid fn fs h1 h2 h3 h4
    simp [listenExtract, h1, h2, h3, h4]
  · intro sid fn fs sg h1 h2 h3 h4 h5
    simp [listenExtract, h1, h2, h3, h4, h5]
  · intro sid fn fs sg sf h1 h2 h3 h4 h5 h6
    simp [listenExtract, h1, h2, h3, h4, h5, h6]
  · intro sid fn fs sg sf fh h1 h2 h3 h4 h5 h6 h7
    simp [listenExtract, h1, h2, h3, h4, h5, h6, h7]
  · intro sid fn fs sg sf fh se h1 h2 h3 h4 h5 h6 h7 h8
    simp [listenExtract, h1, h2, h3, h4, h5, h6, h7, h8]
  · intro sid fn fs sg sf fh se re h1 h2 h3 h4 h5 h6 h7 h8
    simp [listenExtract, h1, h2, h3, h4, h5, h6, h7, h8]

/-- Witness for `listen_required_fields`: a response with no `sessionId`
fails with the `SessionError` for that field. -/
theorem listen_required_fields_witness :
    listenExtract { c9Full with session_id := none } =
      .error (.SessionError "Server did not return session_id") :=
  (listen_required_fields { c9Full with session_id := none }).1 rfl

end RShare
